import Mathlib

/-
Verification of the mcp-mem0 server (an MCP tool server exposing four memory
operations backed by the Mem0 client).

The embedding follows the TypeScript source:
  * `src/src/client/mem0-client.ts` (Mem0ClientService): user-id resolution,
    option building for add/search, client-side sorting, sequential bulk delete;
  * the MCP server service (`MCPServerService.setupRequestHandlers`): request
    routing, the deletion-confirmation guard, response formatting, and the
    outer try/catch.

JavaScript dynamic behaviour that the routed arguments can exhibit at runtime
(truthiness tests such as `if (!confirm)` and `if (memory_id)`) is modelled
explicitly: a small `JSValue` type carries the dynamically-typed `confirm`
argument, and string/number options use `Option` with the empty string / zero
treated as falsy exactly where the source tests truthiness.
-/

namespace Mem0Spec

/-- A dynamically-typed JavaScript value, restricted to the primitive shapes
relevant here (numbers are modelled as integers; the handler only ever tests
such a value for truthiness). -/
inductive JSValue where
  | null : JSValue
  | bool : Bool → JSValue
  | num : Int → JSValue
  | str : String → JSValue
deriving DecidableEq, Repr

/-- JavaScript truthiness for `JSValue`: `null`, `false`, `0` and the empty
string are falsy, everything else is truthy. -/
def JSValue.truthy : JSValue → Bool
  | .null => false
  | .bool b => b
  | .num n => n != 0
  | .str s => s != ""

/-- Truthiness of a possibly-absent value: `undefined` is falsy. This is the
meaning of `!confirm` in the `memory_delete` branch. -/
def confirmTruthy : Option JSValue → Bool
  | none => false
  | some v => v.truthy

/-- A thrown JavaScript exception: either an `Error` object (carrying a
message) or an arbitrary other thrown value, recorded by its string
conversion. -/
inductive Thrown where
  | error : String → Thrown
  | value : String → Thrown
deriving DecidableEq, Repr

/-- The text used when a caught exception is interpolated as
`error instanceof Error ? error.message : String(error)`. -/
def Thrown.text : Thrown → String
  | .error m => m
  | .value s => s

/-- The text used when a caught exception is interpreted as
`error instanceof Error ? error.message : 'Unknown error'`
(the pattern used throughout `mem0-client.ts`). -/
def caughtMsg : Thrown → String
  | .error m => m
  | .value _ => "Unknown error"

/-! ## User-id resolution

`mcp-server` constructor: `this.defaultUserId = process?.env?.MEM0_USER_ID || 'mcp-mem0-user'`;
`getUserId(userId?) { return userId || this.defaultUserId }`.
`env` models the `MEM0_USER_ID` environment value (absent or a string);
JavaScript `||` falls through on the empty string. -/

/-- The configured default user id: `process?.env?.MEM0_USER_ID || 'mcp-mem0-user'`. -/
def defaultUserId (env : Option String) : String :=
  match env with
  | some s => if s = "" then "mcp-mem0-user" else s
  | none => "mcp-mem0-user"

/-- `getUserId(userId?) = userId || defaultUserId`. -/
def getUserId (env : Option String) (userId : Option String) : String :=
  match userId with
  | some u => if u = "" then defaultUserId env else u
  | none => defaultUserId env

/-! ## Client data shapes (`mem0-client.ts` interfaces) -/

/-- `MemoryMetadata` (mem0-client.ts): all fields optional. -/
structure MemoryMetadata where
  category : Option String := none
  importance : Option Int := none
  tags : Option (List String) := none
  source : Option String := none
deriving DecidableEq, Repr

/-- `SearchFilters` (mem0-client.ts); `date_range` is a pair (start, `end`). -/
structure SearchFilters where
  category : Option String := none
  tags : Option (List String) := none
  importance_min : Option Int := none
  date_range : Option (String × String) := none
deriving DecidableEq, Repr

/-- `MemoryUpdateData` (mem0-client.ts). -/
structure MemoryUpdateData where
  content : Option String := none
  metadata : Option MemoryMetadata := none
deriving DecidableEq, Repr

/-- `MemoryResult` (mem0-client.ts): a search hit. The declared interface makes
`id` required, but the formatter guards `if (memory.id)`, so `id` is modelled
as optional with the empty string falsy; `score` (a JS number) is modelled as
an integer. -/
structure MemoryResult where
  id : Option String := none
  memory : String
  score : Int
  metadata : Option MemoryMetadata := none
deriving DecidableEq, Repr

/-! ## addMemoryWithMetadata option building (mem0-client.ts lines 262-277) -/

/-- The `filters` object built from `metadata.tags` in `addMemoryWithMetadata`. -/
structure AddFilters where
  tags : List String
deriving DecidableEq, Repr

/-- The outbound options object of `addMemoryWithMetadata`: `user_id` always,
`categories` / `filters` / `metadata` keys only when set. -/
structure AddOptions where
  user_id : String
  categories : Option (List String) := none
  filters : Option AddFilters := none
  metadata : Option MemoryMetadata := none
deriving DecidableEq, Repr

/-- Transcription of the options construction in `addMemoryWithMetadata`:
start from `{ user_id }`; if `metadata` is given, conditionally add
`categories = [metadata.category]` (when truthy), `filters = { tags }` (when
the `tags` key is present: a JS array is truthy even when empty), and always
set `options.metadata = { importance, source, ...metadata }`, which the object
spread collapses back to the original metadata record. -/
def buildAddOptions (env : Option String) (userId : Option String)
    (metadata : Option MemoryMetadata) : AddOptions :=
  let options : AddOptions := { user_id := getUserId env userId }
  match metadata with
  | none => options
  | some md =>
    let options := match md.category with
      | some c => if c = "" then options else { options with categories := some [c] }
      | none => options
    let options := match md.tags with
      | some ts => { options with filters := some ⟨ts⟩ }
      | none => options
    { options with metadata := some md }

/-! ## searchMemoriesAdvanced option building (mem0-client.ts lines 362-392) -/

/-- The filter object assembled for the vendor search call; `created_at` holds
the pair of bounds sent as `$gte` / `$lte`. -/
structure OutSearchFilters where
  category : Option String := none
  tags : Option (List String) := none
  importance_min : Option Int := none
  created_at : Option (String × String) := none
deriving DecidableEq, Repr

/-- `Object.keys(searchFilters).length > 0` is false iff no key was set. -/
def OutSearchFilters.noKeys (f : OutSearchFilters) : Bool :=
  f.category.isNone && f.tags.isNone && f.importance_min.isNone && f.created_at.isNone

/-- The outbound options object of `searchMemoriesAdvanced`. -/
structure SearchOptions where
  user_id : String
  limit : Int
  filters : Option OutSearchFilters := none
deriving DecidableEq, Repr

/-- The filter object assembled in `searchMemoriesAdvanced` from the
sub-filters that are actually present (category truthy, tags non-empty,
importance_min truthy, date_range present). -/
def buildSearchFilters (f : SearchFilters) : OutSearchFilters :=
  let sf : OutSearchFilters := {}
  let sf := match f.category with
    | some c => if c = "" then sf else { sf with category := some c }
    | none => sf
  let sf := match f.tags with
    | some ts => if ts.length > 0 then { sf with tags := some ts } else sf
    | none => sf
  let sf := match f.importance_min with
    | some i => if i = 0 then sf else { sf with importance_min := some i }
    | none => sf
  match f.date_range with
  | some dr => { sf with created_at := some dr }
  | none => sf

/-- Transcription of the options construction in `searchMemoriesAdvanced`:
`user_id`, `limit: Math.min(limit, 100)`, and the assembled filter object;
the `filters` key is omitted when no sub-filter was populated. -/
def buildSearchOptions (env : Option String) (userId : Option String)
    (filters : Option SearchFilters) (limit : Int) : SearchOptions :=
  let options : SearchOptions := { user_id := getUserId env userId, limit := min limit 100 }
  match filters with
  | none => options
  | some f =>
    let sf := buildSearchFilters f
    if sf.noKeys then options else { options with filters := some sf }

/-! ## Client-side sorting (mem0-client.ts lines 396-405) -/

/-- `a.metadata?.importance || 0`: the importance key used by the comparator,
with a missing metadata object or missing importance treated as `0`. -/
def importanceOf (r : MemoryResult) : Int :=
  match r.metadata with
  | none => 0
  | some md => match md.importance with
    | none => 0
    | some i => i

/-- The ordering induced by the comparator
`(a, b) => importanceB - importanceA`: `a` may stay before `b`
iff `importanceOf b ≤ importanceOf a` (descending, ties kept). -/
def importanceLE (a b : MemoryResult) : Bool :=
  decide (importanceOf b ≤ importanceOf a)

/-- The sort direction requested by the caller. -/
inductive SortKind where
  | relevance | date | importance
deriving DecidableEq, Repr

/-- The client-side post-processing of vendor results:
`if (sort === 'importance' && sortedResults.length > 0) sortedResults.sort(...)`.
`Array.prototype.sort` is stable (ECMAScript 2019), so it is modelled by the
stable `List.mergeSort` under `importanceLE`; other sorts pass results
through unchanged. -/
def sortSearchResults (sort : SortKind) (rs : List MemoryResult) : List MemoryResult :=
  if sort = SortKind.importance ∧ 0 < rs.length then
    rs.mergeSort importanceLE
  else rs

/-- The result shape of `searchMemoriesAdvanced`. -/
structure SearchCallResult where
  success : Bool
  results : Option (List MemoryResult) := none
  error : Option String := none
deriving DecidableEq, Repr

/-- Transcription of `searchMemoriesAdvanced`: apply the declared defaults
(`limit = 10`, `sort = 'relevance'`), build the outbound options, call the
vendor search (`vendorSearch`, which may throw or return a non-array value,
modelled as `none` and normalized to `[]`), post-sort, and wrap the outcome;
a thrown vendor error is caught and converted to a failure result. -/
def searchMemoriesAdvanced
    (vendorSearch : String → SearchOptions → Except Thrown (Option (List MemoryResult)))
    (env : Option String) (query : String) (userId : Option String)
    (filters : Option SearchFilters) (limit : Option Int) (sort : Option SortKind) :
    SearchCallResult :=
  let options := buildSearchOptions env userId filters (limit.getD 10)
  match vendorSearch query options with
  | .error t => { success := false, error := some (caughtMsg t) }
  | .ok vres =>
    let sorted := sortSearchResults (sort.getD .relevance)
      (match vres with | some l => l | none => [])
    { success := true, results := some sorted }

/-! ## deleteMemories (mem0-client.ts lines 644-667) -/

/-- The result shape of `deleteMemories`. -/
structure DeleteManyResult where
  success : Bool
  deleted_count : Nat
  errors : List String
deriving DecidableEq, Repr

/-- The sequential loop of `deleteMemories`, instrumented with the list of ids
on which the remote `delete` was invoked (in call order). `del` is the remote
call, which either succeeds or throws. Returns
(deleted count, error strings in input order, invoked ids in input order). -/
def deleteMemoriesRun (del : String → Except Thrown Unit) :
    List String → Nat × List String × List String
  | [] => (0, [], [])
  | id :: rest =>
    match del id with
    | .ok _ =>
      let (c, errs, calls) := deleteMemoriesRun del rest
      (c + 1, errs, id :: calls)
    | .error e =>
      let (c, errs, calls) := deleteMemoriesRun del rest
      (c, ("Failed to delete " ++ id ++ ": " ++ caughtMsg e) :: errs, id :: calls)

/-- `deleteMemories`: iterate the ids sequentially, count successes, collect
`"Failed to delete <id>: <message>"` strings for failures, and return
`{ success: errors.length === 0, deleted_count, errors }`. -/
def deleteMemories (del : String → Except Thrown Unit) (memoryIds : List String) :
    DeleteManyResult :=
  let (c, errs, _) := deleteMemoriesRun del memoryIds
  { success := decide (errs.length = 0), deleted_count := c, errors := errs }

/-- The ids on which `deleteMemories` invoked the remote delete, in order. -/
def deleteMemoriesCalls (del : String → Except Thrown Unit) (memoryIds : List String) :
    List String :=
  (deleteMemoriesRun del memoryIds).2.2

/-! ## MCP server: responses, formatter and the call-tool handler
(`MCPServerService.setupRequestHandlers`) -/

/-- One `{ type: 'text', text }` content item of a tool response. -/
structure TextContent where
  type : String
  text : String
deriving DecidableEq, Repr

/-- Shorthand for a text content item. -/
def mkText (s : String) : TextContent := ⟨"text", s⟩

/-- The uniform tool response `{ content, isError }`. -/
structure ToolResponse where
  content : List TextContent
  isError : Bool
deriving DecidableEq, Repr

/-- JS template-literal rendering of a possibly-undefined string
(`undefined` interpolates as the text `undefined`). -/
def jsStr : Option String → String
  | some s => s
  | none => "undefined"

/-- `result.error || 'Unknown error'` (absent or empty string falls through). -/
def orUnknown : Option String → String
  | some s => if s = "" then "Unknown error" else s
  | none => "Unknown error"

/-- Transcription of the per-match formatter in the `memory_search` branch:
`output = 'Memory: ...' + '\nRelevance: ...'`, then conditional `+=` lines for
category, importance (both skipped when falsy), tags (any present array,
joined with `', '`), source, and id, and a final `+ '\n---'`. -/
def formatMemory (m : MemoryResult) : String :=
  "Memory: " ++ m.memory ++ "\nRelevance: " ++ toString m.score
  ++ (match m.metadata with
      | none => ""
      | some md =>
        (match md.category with
          | some c => if c = "" then "" else "\nCategory: " ++ c
          | none => "")
        ++ (match md.importance with
          | some i => if i = 0 then "" else "\nImportance: " ++ toString i
          | none => "")
        ++ (match md.tags with
          | some ts => "\nTags: " ++ String.intercalate ", " ts
          | none => "")
        ++ (match md.source with
          | some s => if s = "" then "" else "\nSource: " ++ s
          | none => ""))
  ++ (match m.id with
      | some i => if i = "" then "" else "\nID: " ++ i
      | none => "")
  ++ "\n---"

/-- The search response text: the formatted blocks joined with `'\n'`, with
`formattedResults || 'No memories found'` substituting the literal fallback
for the (falsy) empty string. -/
def searchText (rs : List MemoryResult) : String :=
  let formatted := String.intercalate "\n" (rs.map formatMemory)
  if formatted = "" then "No memories found" else formatted

/-- The result shape of `addMemoryWithMetadata`. -/
structure AddCallResult where
  success : Bool
  id : Option String := none
  error : Option String := none
deriving DecidableEq, Repr

/-- The result shape of `updateMemory`. -/
structure UpdateCallResult where
  success : Bool
  error : Option String := none
deriving DecidableEq, Repr

/-- The result shape of `deleteMemory`. -/
structure DeleteCallResult where
  success : Bool
  error : Option String := none
deriving DecidableEq, Repr

/-- The argument record extracted (by unchecked cast) from the call-tool
request: every branch destructures the fields it needs from the same dynamic
object. `confirm` is kept dynamically typed because the handler only tests it
for truthiness. -/
structure ArgsRecord where
  content : String := ""
  userId : Option String := none
  metadata : Option MemoryMetadata := none
  query : String := ""
  filters : Option SearchFilters := none
  limit : Option Int := none
  sort : Option SortKind := none
  memory_id : Option String := none
  memory_ids : Option (List String) := none
  updates : Option MemoryUpdateData := none
  confirm : Option JSValue := none
deriving DecidableEq, Repr

/-- A record of one adapter (mem0Client) invocation made by the handler. -/
inductive AdapterCall where
  | add : String → String → Option MemoryMetadata → AdapterCall
  | search : String → String → Option SearchFilters → Option Int → Option SortKind → AdapterCall
  | update : Option String → String → Option MemoryUpdateData → AdapterCall
  | deleteOne : String → String → AdapterCall
  | deleteMany : List String → String → AdapterCall
deriving DecidableEq, Repr

/-- The adapter interface seen by the handler (the five async operations of
`mem0Client`); each call may return a result object or throw. -/
structure Adapter where
  addMemoryWithMetadata : String → String → Option MemoryMetadata → Except Thrown AddCallResult
  searchMemoriesAdvanced : String → String → Option SearchFilters → Option Int → Option SortKind → Except Thrown SearchCallResult
  updateMemory : Option String → String → Option MemoryUpdateData → Except Thrown UpdateCallResult
  deleteMemory : String → String → Except Thrown DeleteCallResult
  deleteMemories : List String → String → Except Thrown DeleteManyResult

/-- An error-flagged response with the given text. -/
def errResponse (s : String) : ToolResponse := { content := [mkText s], isError := true }

/-- A success response with the given text. -/
def okResponse (s : String) : ToolResponse := { content := [mkText s], isError := false }

/-- The body of the call-tool handler (everything inside the outer `try`),
instrumented with the list of adapter calls it performed. A `.error` first
component models an exception propagating to the outer `catch`: the missing
`args` throw (`throw new Error('No arguments provided')`) and any exception
thrown by an adapter call. Dispatch, argument extraction, the
deletion-confirmation guard and all response formatting follow the `switch`
statement of `setupRequestHandlers`. -/
def handleCallBody (ad : Adapter) (env : Option String) (name : String)
    (args : Option ArgsRecord) : Except Thrown ToolResponse × List AdapterCall :=
  match args with
  | none => (.error (.error "No arguments provided"), [])
  | some a =>
    if name = "memory_add" then
      let uid := getUserId env a.userId
      let call := AdapterCall.add a.content uid a.metadata
      match ad.addMemoryWithMetadata a.content uid a.metadata with
      | .error t => (.error t, [call])
      | .ok r =>
        if r.success then
          (.ok (okResponse ("Memory added successfully with ID: " ++ jsStr r.id)), [call])
        else
          (.ok (errResponse ("Failed to add memory: " ++ jsStr r.error)), [call])
    else if name = "memory_search" then
      let uid := getUserId env a.userId
      let call := AdapterCall.search a.query uid a.filters a.limit a.sort
      match ad.searchMemoriesAdvanced a.query uid a.filters a.limit a.sort with
      | .error t => (.error t, [call])
      | .ok r =>
        match r.success, r.results with
        | true, some rs => (.ok (okResponse (searchText rs)), [call])
        | _, _ => (.ok (errResponse ("Failed to search memories: " ++ orUnknown r.error)), [call])
    else if name = "memory_update" then
      let uid := getUserId env a.userId
      let call := AdapterCall.update a.memory_id uid a.updates
      match ad.updateMemory a.memory_id uid a.updates with
      | .error t => (.error t, [call])
      | .ok r =>
        if r.success then
          (.ok (okResponse ("Memory " ++ jsStr a.memory_id ++ " updated successfully")), [call])
        else
          (.ok (errResponse ("Failed to update memory: " ++ jsStr r.error)), [call])
    else if name = "memory_delete" then
      if confirmTruthy a.confirm = false then
        (.ok (errResponse "Deletion requires confirmation. Please set confirm: true to proceed."), [])
      else
        match a.memory_id, (match a.memory_id with | some s => s != "" | none => false) with
        | some mid, true =>
          let uid := getUserId env a.userId
          let call := AdapterCall.deleteOne mid uid
          match ad.deleteMemory mid uid with
          | .error t => (.error t, [call])
          | .ok r =>
            if r.success then
              (.ok (okResponse ("Memory " ++ mid ++ " deleted successfully")), [call])
            else
              (.ok (errResponse ("Failed to delete memory: " ++ jsStr r.error)), [call])
        | _, _ =>
          match a.memory_ids with
          | some ids =>
            if 0 < ids.length then
              let uid := getUserId env a.userId
              let call := AdapterCall.deleteMany ids uid
              match ad.deleteMemories ids uid with
              | .error t => (.error t, [call])
              | .ok r =>
                let successMessage := "Deleted " ++ toString r.deleted_count ++ " memories successfully"
                let errorMessage := if 0 < r.errors.length
                  then "\nErrors: " ++ String.intercalate "; " r.errors
                  else ""
                (.ok { content := [mkText (successMessage ++ errorMessage)], isError := !r.success }, [call])
            else
              (.ok (errResponse "Either memory_id or memory_ids must be provided"), [])
          | none =>
            (.ok (errResponse "Either memory_id or memory_ids must be provided"), [])
    else
      (.ok (errResponse ("Unknown tool: " ++ name)), [])

/-- The complete call-tool handler: the body wrapped in the outer
`try`/`catch`, which converts any thrown exception into
`{ content: [{ type: 'text', text: 'Error: <message>' }], isError: true }`. -/
def handleCall (ad : Adapter) (env : Option String) (name : String)
    (args : Option ArgsRecord) : ToolResponse × List AdapterCall :=
  match handleCallBody ad env name args with
  | (.ok r, calls) => (r, calls)
  | (.error t, calls) => (errResponse ("Error: " ++ t.text), calls)

/-! ## Spec-side rendering vocabulary and witness fixtures -/

/-- `sep`-prefixed concatenation: the contribution of the trailing lines of a
block once a separator precedes each of them. -/
def glue (sep : String) : List String → String
  | [] => ""
  | x :: xs => sep ++ x ++ glue sep xs

/-- The lines of one rendered search-result block, as the spec describes them:
the memory text, the relevance score, then conditionally-present lines for
category, importance, comma-joined tags, source, and id. -/
def blockLines (m : MemoryResult) : List String :=
  ["Memory: " ++ m.memory, "Relevance: " ++ toString m.score]
  ++ (match m.metadata with
      | none => []
      | some md =>
        (match md.category with
          | some c => if c = "" then [] else ["Category: " ++ c]
          | none => [])
        ++ (match md.importance with
          | some i => if i = 0 then [] else ["Importance: " ++ toString i]
          | none => [])
        ++ (match md.tags with
          | some ts => ["Tags: " ++ String.intercalate ", " ts]
          | none => [])
        ++ (match md.source with
          | some s => if s = "" then [] else ["Source: " ++ s]
          | none => []))
  ++ (match m.id with
      | some i => if i = "" then [] else ["ID: " ++ i]
      | none => [])

/-- A concrete adapter whose every operation succeeds; used to instantiate
theorems at concrete inputs. -/
def okAdapter : Adapter where
  addMemoryWithMetadata := fun _ _ _ => .ok { success := true, id := some "id-1" }
  searchMemoriesAdvanced := fun _ _ _ _ _ => .ok { success := true, results := some [] }
  updateMemory := fun _ _ _ => .ok { success := true }
  deleteMemory := fun _ _ => .ok { success := true }
  deleteMemories := fun ids _ => .ok { success := true, deleted_count := ids.length, errors := [] }

/-- A concrete remote-delete behaviour that fails on the id `B` and succeeds
elsewhere. -/
def delB : String → Except Thrown Unit :=
  fun i => if i = "B" then .error (.error "boom") else .ok ()

/-- A concrete fully-populated metadata record. -/
def mdEx : MemoryMetadata :=
  { category := some "frontend", importance := some 8,
    tags := some ["react", "hooks"], source := some "docs" }

/-- A concrete search result carrying only an importance value. -/
def rImp (n : Int) : MemoryResult :=
  { memory := "m" ++ toString n, score := 0, metadata := some { importance := some n } }

/-- The spec example vendor result list with importances `[3, 9, 5]`. -/
def rsEx : List MemoryResult := [rImp 3, rImp 9, rImp 5]

/-! ## Theorems -/

/-- C5: the effective user identity is resolved with the priority
explicit `userId` argument > configured `MEM0_USER_ID` default > the
hardcoded fallback, and with both absent it is exactly `"mcp-mem0-user"`. -/
theorem userId_resolution_priority (env userId : Option String) :
    (∀ s, userId = some s → s ≠ "" → getUserId env userId = s) ∧
    (∀ e, userId = none → env = some e → e ≠ "" → getUserId env userId = e) ∧
    (userId = none → env = none → getUserId env userId = "mcp-mem0-user") := by
  refine ⟨?_, ?_, ?_⟩
  · intro s hs hne
    subst hs
    simp [getUserId, hne]
  · intro e hu he hne
    subst hu
    subst he
    simp [getUserId, defaultUserId, hne]
  · intro hu he
    subst hu
    subst he
    rfl

/-- Witness for C5 at concrete inputs: the argument beats the configured
default, the configured default beats the fallback, and both absent give the
fallback literal. -/
theorem userId_resolution_priority_witness :
    getUserId (some "env-user") (some "arg-user") = "arg-user" ∧
    getUserId (some "env-user") none = "env-user" ∧
    getUserId none none = "mcp-mem0-user" :=
  ⟨(userId_resolution_priority (some "env-user") (some "arg-user")).1 "arg-user" rfl (by decide),
   (userId_resolution_priority (some "env-user") none).2.1 "env-user" rfl rfl (by decide),
   (userId_resolution_priority none none).2.2 rfl rfl⟩

/-- C7: the limit passed downstream in the outbound search options equals
`min limit 100`; any requested limit at most 100 is passed unchanged (no
lower clamp), and any requested limit of at least 100 becomes exactly 100. -/
theorem search_limit_clamp (env userId : Option String) (filters : Option SearchFilters)
    (limit : Int) :
    (buildSearchOptions env userId filters limit).limit = min limit 100 ∧
    (limit ≤ 100 → (buildSearchOptions env userId filters limit).limit = limit) ∧
    (100 ≤ limit → (buildSearchOptions env userId filters limit).limit = 100) := by
  have h : (buildSearchOptions env userId filters limit).limit = min limit 100 := by
    cases filters with
    | none => rfl
    | some f =>
      cases hk : (buildSearchFilters f).noKeys <;> simp [buildSearchOptions, hk]
  refine ⟨h, ?_, ?_⟩ <;> intro hle <;> rw [h] <;> omega

/-- Witness for C7: a requested limit of 150 is clamped to exactly 100 and a
requested limit of 5 passes through as 5. -/
theorem search_limit_clamp_witness :
    (buildSearchOptions none none none 150).limit = 100 ∧
    (buildSearchOptions none none none 5).limit = 5 :=
  ⟨(search_limit_clamp none none none 150).2.2 (by decide),
   (search_limit_clamp none none none 5).2.1 (by decide)⟩

/-- C6: with the metadata argument absent the outbound add options carry only
the `user_id` key (no categories, filters or metadata keys); with metadata
given, the metadata bag is always the full original metadata, a present
(non-empty) category becomes the single-element categories list, and a present
tags field becomes the filters object. -/
theorem addOptions_metadata_shape (env userId : Option String) :
    (buildAddOptions env userId none =
      { user_id := getUserId env userId, categories := none, filters := none, metadata := none }) ∧
    (∀ m : MemoryMetadata,
      (buildAddOptions env userId (some m)).metadata = some m ∧
      (buildAddOptions env userId (some m)).user_id = getUserId env userId ∧
      (∀ c, m.category = some c → c ≠ "" →
        (buildAddOptions env userId (some m)).categories = some [c]) ∧
      (∀ ts, m.tags = some ts → (buildAddOptions env userId (some m)).filters = some ⟨ts⟩)) := by
  refine ⟨rfl, ?_⟩
  intro m
  obtain ⟨cat, imp, tags, src⟩ := m
  refine ⟨?_, ?_, ?_, ?_⟩
  · cases cat <;> cases tags <;> simp [buildAddOptions, apply_ite AddOptions.metadata]
  · cases cat <;> cases tags <;> simp [buildAddOptions, apply_ite AddOptions.user_id]
  · intro c hc hne
    simp only at hc
    subst hc
    cases tags <;> simp [buildAddOptions, hne]
  · intro ts hts
    simp only at hts
    subst hts
    cases cat <;> simp [buildAddOptions, apply_ite AddOptions.filters]

/-- Witness for C6 at a concrete metadata record: no metadata gives the bare
options object, and a full record maps category, tags and the metadata bag as
described. -/
theorem addOptions_metadata_shape_witness :
    buildAddOptions none none none =
      { user_id := "mcp-mem0-user", categories := none, filters := none, metadata := none } ∧
    (buildAddOptions none none (some mdEx)).categories = some ["frontend"] ∧
    (buildAddOptions none none (some mdEx)).filters = some ⟨["react", "hooks"]⟩ ∧
    (buildAddOptions none none (some mdEx)).metadata = some mdEx :=
  ⟨(addOptions_metadata_shape none none).1,
   ((addOptions_metadata_shape none none).2 mdEx).2.2.1 "frontend" rfl (by decide),
   ((addOptions_metadata_shape none none).2 mdEx).2.2.2 ["react", "hooks"] rfl,
   ((addOptions_metadata_shape none none).2 mdEx).1⟩

/-- Closed form of the instrumented loop of `deleteMemories`. -/
theorem deleteMemoriesRun_eq (del : String → Except Thrown Unit) (ids : List String) :
    deleteMemoriesRun del ids =
      ((ids.filter fun i => match del i with | .ok _ => true | .error _ => false).length,
       ids.filterMap (fun i => match del i with
         | .ok _ => none
         | .error e => some ("Failed to delete " ++ i ++ ": " ++ caughtMsg e)),
       ids) := by
  induction ids with
  | nil => rfl
  | cons i rest ih =>
    cases h : del i <;>
      simp [deleteMemoriesRun, h, ih, List.filter_cons, List.filterMap_cons]

/-- C2: `deleteMemories` invokes the remote delete on every id in input order,
its errors list holds exactly one `"Failed to delete <id>: <message>"` string
per failing id in input order, its deleted count is the number of succeeding
ids, its success flag holds iff the errors list is empty, and the empty input
returns `{success: true, deleted_count: 0, errors: []}` with zero remote
calls. -/
theorem deleteMemories_sequential_accumulation (del : String → Except Thrown Unit)
    (ids : List String) :
    deleteMemoriesCalls del ids = ids ∧
    (deleteMemories del ids).errors = ids.filterMap (fun i => match del i with
      | .ok _ => none
      | .error e => some ("Failed to delete " ++ i ++ ": " ++ caughtMsg e)) ∧
    (deleteMemories del ids).deleted_count =
      (ids.filter fun i => match del i with | .ok _ => true | .error _ => false).length ∧
    ((deleteMemories del ids).success = true ↔ (deleteMemories del ids).errors = []) ∧
    (ids = [] → deleteMemories del ids = { success := true, deleted_count := 0, errors := [] } ∧
      deleteMemoriesCalls del ids = []) := by
  have hrun := deleteMemoriesRun_eq del ids
  refine ⟨?_, ?_, ?_, ?_, ?_⟩
  · simp [deleteMemoriesCalls, hrun]
  · simp [deleteMemories, hrun]
  · simp [deleteMemories, hrun]
  · simp [deleteMemories, hrun, List.length_eq_zero]
  · rintro rfl
    exact ⟨rfl, rfl⟩

/-- Witness for C2, reproducing the spec example: with `B` failing among
`[A, B, C]` the result is `{success: false, deleted_count: 2, errors:
["Failed to delete B: boom"]}`; the empty input gives the trivial success
result and makes no remote call. -/
theorem deleteMemories_sequential_accumulation_witness :
    deleteMemories delB ["A", "B", "C"] =
      { success := false, deleted_count := 2, errors := ["Failed to delete B: boom"] } ∧
    deleteMemoriesCalls delB ["A", "B", "C"] = ["A", "B", "C"] ∧
    deleteMemories delB [] = { success := true, deleted_count := 0, errors := [] } ∧
    deleteMemoriesCalls delB [] = [] :=
  ⟨by decide,
   (deleteMemories_sequential_accumulation delB ["A", "B", "C"]).1,
   ((deleteMemories_sequential_accumulation delB []).2.2.2.2 rfl).1,
   ((deleteMemories_sequential_accumulation delB []).2.2.2.2 rfl).2⟩

/-- C1 counterexample: `confirm: 1` is not strictly `true`, yet the handler
does not return the confirmation error — the truthiness test `if (!confirm)`
accepts it, the adapter's single delete IS called, and the response is the
success message. -/
theorem delete_confirm_counterexample :
    (handleCall okAdapter none "memory_delete"
        (some { memory_id := some "m1", confirm := some (JSValue.num 1) })) =
      (okResponse "Memory m1 deleted successfully", [AdapterCall.deleteOne "m1" "mcp-mem0-user"]) ∧
    (handleCall okAdapter none "memory_delete"
        (some { memory_id := some "m1", confirm := some (JSValue.num 1) })).1.isError = false := by
  constructor <;> rfl

/-- C1 (amended): whenever the `confirm` argument is falsy — absent, `false`,
`null`, `0` or the empty string — the handler returns the error-flagged
confirmation message and performs no adapter call, for both request shapes;
a truthy non-`true` value, however, is treated as confirmation. -/
theorem delete_requires_truthy_confirm (ad : Adapter) (env : Option String) (a : ArgsRecord)
    (h : confirmTruthy a.confirm = false) :
    handleCall ad env "memory_delete" (some a) =
      (errResponse "Deletion requires confirmation. Please set confirm: true to proceed.", []) := by
  simp [handleCall, handleCallBody, h]

/-- Witness for the amended C1: with `confirm` absent the handler returns the
confirmation error and records no adapter call. -/
theorem delete_requires_truthy_confirm_witness :
    handleCall okAdapter none "memory_delete" (some { memory_id := some "m1" }) =
      (errResponse "Deletion requires confirmation. Please set confirm: true to proceed.", []) :=
  delete_requires_truthy_confirm okAdapter none { memory_id := some "m1" } rfl

/-- C9: an unrecognized tool name yields an error-flagged response whose text
is `Unknown tool: <name>` (containing the literal name), with no adapter call
and no thrown exception. -/
theorem unknown_tool_response (ad : Adapter) (env : Option String) (name : String)
    (a : ArgsRecord) (h1 : name ≠ "memory_add") (h2 : name ≠ "memory_search")
    (h3 : name ≠ "memory_update") (h4 : name ≠ "memory_delete") :
    handleCall ad env name (some a) = (errResponse ("Unknown tool: " ++ name), []) := by
  simp [handleCall, handleCallBody, h1, h2, h3, h4]

/-- Witness for C9 at the concrete unknown name `memory_destroy`. -/
theorem unknown_tool_response_witness :
    handleCall okAdapter none "memory_destroy" (some {}) =
      (errResponse "Unknown tool: memory_destroy", []) :=
  unknown_tool_response okAdapter none "memory_destroy" {}
    (by decide) (by decide) (by decide) (by decide)

/-- C10: with `confirm` equal to `true` and a non-empty `memory_id` supplied,
only the single-delete path runs — the adapter is invoked exactly once, on
the single delete with that id — and the outcome is entirely independent of
the `memory_ids` argument, which is silently ignored. -/
theorem delete_memory_id_precedence (ad : Adapter) (env : Option String) (a : ArgsRecord)
    (mid : String) (hc : a.confirm = some (JSValue.bool true))
    (hid : a.memory_id = some mid) (hne : mid ≠ "") :
    (handleCall ad env "memory_delete" (some a)).2 =
      [AdapterCall.deleteOne mid (getUserId env a.userId)] ∧
    handleCall ad env "memory_delete" (some a) =
      handleCall ad env "memory_delete" (some { a with memory_ids := none }) := by
  have hbody : ∀ ids : Option (List String),
      handleCallBody ad env "memory_delete" (some { a with memory_ids := ids }) =
        (match ad.deleteMemory mid (getUserId env a.userId) with
         | .error t => (.error t, [AdapterCall.deleteOne mid (getUserId env a.userId)])
         | .ok r =>
           if r.success then
             (.ok (okResponse ("Memory " ++ mid ++ " deleted successfully")),
              [AdapterCall.deleteOne mid (getUserId env a.userId)])
           else
             (.ok (errResponse ("Failed to delete memory: " ++ jsStr r.error)),
              [AdapterCall.deleteOne mid (getUserId env a.userId)])) := by
    intro ids
    have hbne : (mid != "") = true := by simp [hne]
    simp [handleCallBody, confirmTruthy, hc, hid, JSValue.truthy, hbne]
  have ha : a = { a with memory_ids := a.memory_ids } := rfl
  constructor
  · rw [handleCall, ha, hbody a.memory_ids]
    cases hdel : ad.deleteMemory mid (getUserId env a.userId) with
    | error t => rfl
    | ok r => cases hr : r.success <;> simp [hr]
  · rw [handleCall, handleCall, ha, hbody a.memory_ids, hbody none]

/-- Witness for C10: with both `memory_id` and a non-empty `memory_ids`
supplied (and `confirm: true`), only the single delete is invoked and the
result equals the one with `memory_ids` dropped. -/
theorem delete_memory_id_precedence_witness :
    (handleCall okAdapter none "memory_delete"
        (some { memory_id := some "m1", memory_ids := some ["x", "y"],
                confirm := some (JSValue.bool true) })).2 =
      [AdapterCall.deleteOne "m1" "mcp-mem0-user"] ∧
    handleCall okAdapter none "memory_delete"
        (some { memory_id := some "m1", memory_ids := some ["x", "y"],
                confirm := some (JSValue.bool true) }) =
      handleCall okAdapter none "memory_delete"
        (some { memory_id := some "m1", memory_ids := none,
                confirm := some (JSValue.bool true) }) :=
  delete_memory_id_precedence okAdapter none
    { memory_id := some "m1", memory_ids := some ["x", "y"],
      confirm := some (JSValue.bool true) } "m1" rfl rfl (by decide)

/-- C4: the call-tool handler is total (it always produces a response), and
whenever its body raises an exception — the missing-arguments throw or any
exception thrown by an adapter invocation — the outer catch converts it into
an error-flagged response whose text is exactly `Error: ` followed by the
exception's message, with the adapter-call record preserved. -/
theorem handler_converts_thrown (ad : Adapter) (env : Option String) (name : String)
    (args : Option ArgsRecord) (t : Thrown)
    (h : (handleCallBody ad env name args).1 = .error t) :
    handleCall ad env name args =
      (errResponse ("Error: " ++ t.text), (handleCallBody ad env name args).2) := by
  rw [handleCall]
  rcases hb : handleCallBody ad env name args with ⟨b, calls⟩
  rw [hb] at h
  simp only at h
  subst h
  rfl

/-- Witness for C4: a call with no arguments throws
`No arguments provided`, which the handler converts to the
`Error: No arguments provided` error response. -/
theorem handler_converts_thrown_witness :
    handleCall okAdapter none "memory_add" none =
      (errResponse "Error: No arguments provided", []) :=
  handler_converts_thrown okAdapter none "memory_add" none
    (Thrown.error "No arguments provided") rfl

/-- The comparator relation is transitive. -/
theorem importanceLE_trans (a b c : MemoryResult)
    (hab : importanceLE a b) (hbc : importanceLE b c) : importanceLE a c := by
  simp only [importanceLE, decide_eq_true_eq] at *
  omega

/-- The comparator relation is total. -/
theorem importanceLE_total (a b : MemoryResult) :
    importanceLE a b || importanceLE b a := by
  simp only [importanceLE, Bool.or_eq_true, decide_eq_true_eq]
  omega

/-- C3: with sort `importance` the post-processed results are in descending
order of `metadata.importance` (missing importance read as 0), and results of
equal importance keep their original relative order (for every importance
value, filtering the output to that value gives exactly the input filtered to
that value); with sort `relevance` or `date` the vendor order is returned
unchanged; and `searchMemoriesAdvanced` returns exactly this post-processing
of the vendor result list. -/
theorem search_sort_behaviour (sort : SortKind) (rs : List MemoryResult) :
    ((sort = SortKind.relevance ∨ sort = SortKind.date) → sortSearchResults sort rs = rs) ∧
    (sort = SortKind.importance →
      (sortSearchResults sort rs).Pairwise (fun a b => importanceOf b ≤ importanceOf a) ∧
      ∀ k : Int, (sortSearchResults sort rs).filter (fun r => decide (importanceOf r = k)) =
        rs.filter (fun r => decide (importanceOf r = k))) ∧
    (∀ (vendorSearch : String → SearchOptions → Except Thrown (Option (List MemoryResult)))
       (env : Option String) (query : String) (userId : Option String)
       (filters : Option SearchFilters) (limit : Option Int),
      vendorSearch query (buildSearchOptions env userId filters (limit.getD 10)) =
        Except.ok (some rs) →
      (searchMemoriesAdvanced vendorSearch env query userId filters limit (some sort)).results =
        some (sortSearchResults sort rs)) := by
  refine ⟨?_, ?_, ?_⟩
  · rintro (rfl | rfl) <;> simp [sortSearchResults]
  · rintro rfl
    cases rs with
    | nil => simp [sortSearchResults]
    | cons x xs =>
      have hsort : sortSearchResults SortKind.importance (x :: xs) =
          (x :: xs).mergeSort importanceLE := by
        simp [sortSearchResults]
      constructor
      · rw [hsort]
        exact (List.sorted_mergeSort importanceLE_trans importanceLE_total (x :: xs)).imp
          (fun h => by simpa [importanceLE] using h)
      · intro k
        rw [hsort]
        have hmem : ∀ r ∈ (x :: xs).filter (fun r => decide (importanceOf r = k)),
            importanceOf r = k := by
          intro r hr
          simpa using (List.mem_filter.mp hr).2
        have hcpair : ((x :: xs).filter (fun r => decide (importanceOf r = k))).Pairwise
            (fun a b => importanceLE a b) := by
          refine List.pairwise_of_forall_mem_list ?_
          intro a ha b hb
          simp [importanceLE, hmem a ha, hmem b hb]
        have h1 := List.sublist_mergeSort importanceLE_trans importanceLE_total hcpair
          (List.filter_sublist (x :: xs))
        have h2 := h1.filter (fun r => decide (importanceOf r = k))
        rw [List.filter_eq_self.mpr (fun a ha => by simpa using hmem a ha)] at h2
        have hlen : (((x :: xs).mergeSort importanceLE).filter
            (fun r => decide (importanceOf r = k))).length =
            ((x :: xs).filter (fun r => decide (importanceOf r = k))).length :=
          ((List.mergeSort_perm (x :: xs) importanceLE).filter _).length_eq
        exact (h2.eq_of_length hlen.symm).symm
  · intro vendorSearch env query userId filters limit hv
    simp [searchMemoriesAdvanced, hv]

/-- Witness for C3, using the spec example importances `[3, 9, 5]`: the
relevance sort passes the list through, the importance sort preserves the
relative order of each importance class, `searchMemoriesAdvanced` applies the
post-processing, and the importance-sorted output is concretely
`[9, 5, 3]`. -/
theorem search_sort_behaviour_witness :
    sortSearchResults SortKind.relevance rsEx = rsEx ∧
    (sortSearchResults SortKind.importance rsEx).filter
        (fun r => decide (importanceOf r = 5)) =
      rsEx.filter (fun r => decide (importanceOf r = 5)) ∧
    (searchMemoriesAdvanced (fun _ _ => Except.ok (some rsEx)) none "query" none none none
        (some SortKind.importance)).results = some (sortSearchResults SortKind.importance rsEx) ∧
    sortSearchResults SortKind.importance rsEx = [rImp 9, rImp 5, rImp 3] :=
  ⟨(search_sort_behaviour SortKind.relevance rsEx).1 (Or.inl rfl),
   ((search_sort_behaviour SortKind.importance rsEx).2.1 rfl).2 5,
   (search_sort_behaviour SortKind.importance rsEx).2.2
     (fun _ _ => Except.ok (some rsEx)) none "query" none none none rfl,
   by simp [sortSearchResults, rsEx, List.mergeSort, List.splitInTwo, List.splitAt,
        List.splitAt.go, List.merge, importanceLE, rImp, importanceOf]⟩

/-- Unfolding of the accumulator loop behind `String.intercalate`. -/
theorem intercalate_go_eq (sep : String) (l : List String) :
    ∀ acc, String.intercalate.go acc sep l = acc ++ glue sep l := by
  induction l with
  | nil => intro acc; simp [String.intercalate.go, glue]
  | cons x xs ih => intro acc; simp [String.intercalate.go, glue, ih, String.append_assoc]

/-- `String.intercalate` on a non-empty list in terms of `glue`. -/
theorem intercalate_cons (sep b : String) (ls : List String) :
    String.intercalate sep (b :: ls) = b ++ glue sep ls := by
  simp [String.intercalate, intercalate_go_eq]

/-- `glue` distributes over list append. -/
theorem glue_append (sep : String) (a b : List String) :
    glue sep (a ++ b) = glue sep a ++ glue sep b := by
  induction a with
  | nil => simp [glue]
  | cons x xs ih => simp [glue, ih, String.append_assoc]

/-- Each formatted search-result block is exactly its (conditional) lines
joined by newlines, with the trailing `---` line appended. -/
theorem formatMemory_eq_blockLines (m : MemoryResult) :
    formatMemory m = String.intercalate "\n" (blockLines m) ++ "\n---" := by
  obtain ⟨id, mem, score, md⟩ := m
  simp only [formatMemory, blockLines, List.cons_append, List.nil_append]
  rw [intercalate_cons]
  cases md with
  | none =>
    cases id <;> dsimp only <;> (try split_ifs) <;>
      simp [glue, glue_append, ← String.append_assoc]
  | some mdv =>
    obtain ⟨cat, imp, tags, src⟩ := mdv
    cases cat <;> cases imp <;> cases tags <;> cases src <;> cases id <;>
      dsimp only <;> (try split_ifs) <;>
      simp [glue, glue_append, ← String.append_assoc]

/-- Joining per-entry blocks that each end in a `---` line equals joining the
bare blocks with a dashed-line separator, plus one trailing dashed line. -/
theorem intercalate_map_dashes {α : Type} (f : α → String) (l : List α) (hl : l ≠ []) :
    String.intercalate "\n" (l.map fun x => f x ++ "\n---") =
      String.intercalate "\n---\n" (l.map f) ++ "\n---" := by
  obtain ⟨x, xs, rfl⟩ := List.exists_cons_of_ne_nil hl
  rw [List.map_cons, List.map_cons, intercalate_cons, intercalate_cons]
  have aux : ∀ ys : List α,
      "\n---" ++ glue "\n" (ys.map fun x => f x ++ "\n---") =
        glue "\n---\n" (ys.map f) ++ "\n---" := by
    intro ys
    induction ys with
    | nil => simp [glue]
    | cons y ys ih =>
      simp only [List.map_cons, glue, String.append_assoc]
      rw [ih]
      rw [show ("\n---\n" : String) = "\n---" ++ "\n" from rfl, String.append_assoc]
  rw [String.append_assoc, aux xs, ← String.append_assoc]

/-- A string with `\n---` appended is never empty. -/
theorem append_dashes_ne_empty (s : String) : s ++ "\n---" ≠ "" := by
  intro h
  have := congrArg String.data h
  simp at this

/-- C8: a successful search with matches renders each match as a multi-line
block (memory text, relevance score, then the conditionally-present category,
importance, comma-joined tags, source and id lines), with a line of three
dashes separating consecutive entries (and closing the last); an empty result
set renders exactly `No memories found`. -/
theorem search_rendering (rs : List MemoryResult) :
    (rs = [] → searchText rs = "No memories found") ∧
    (rs ≠ [] → searchText rs =
      String.intercalate "\n---\n"
        (rs.map fun m => String.intercalate "\n" (blockLines m)) ++ "\n---") := by
  constructor
  · rintro rfl
    rfl
  · intro h
    have hmap : rs.map formatMemory =
        rs.map fun m => (String.intercalate "\n" (blockLines m)) ++ "\n---" :=
      List.map_congr_left fun m _ => formatMemory_eq_blockLines m
    rw [searchText, hmap, intercalate_map_dashes _ _ h]
    exact if_neg (append_dashes_ne_empty _)

/-- Witness for C8 at concrete inputs: the empty result set renders the
literal fallback, and a two-element result set renders the two blocks joined
by a dashed separator line. -/
theorem search_rendering_witness :
    searchText [] = "No memories found" ∧
    searchText [rImp 3, rImp 9] =
      String.intercalate "\n---\n"
        ([rImp 3, rImp 9].map fun m => String.intercalate "\n" (blockLines m)) ++ "\n---" :=
  ⟨(search_rendering []).1 rfl,
   (search_rendering [rImp 3, rImp 9]).2 (by decide)⟩

end Mem0Spec
